import Mathlib

/-!
Shallow embedding of the LS-MC peak-detection / product-identification
pipeline (src/src/analysis/*.py) over exact rational arithmetic.
Floating-point values of the source are modelled as rationals; numpy NaN
results are modelled as Option.none; Python exceptions as Except.error.
-/

set_option maxHeartbeats 1000000
set_option maxRecDepth 8000

namespace LSMC

/-- One row of a peaks DataFrame (columns retention_time, mass, intensity,
area), as consumed by PeakAnalyzer. -/
structure Peak where
  retention_time : ℚ
  mass : ℚ
  intensity : ℚ
  area : ℚ
deriving Repr, DecidableEq

namespace PeakAnalyzer

/-- The mass filter of PeakAnalyzer.detect_product: rows with
target_mass - tolerance <= mass <= target_mass + tolerance. -/
def mass_matches (peaks : List Peak) (target_mass tolerance : ℚ) : List Peak :=
  peaks.filter (fun p =>
    decide (target_mass - tolerance ≤ p.mass ∧ p.mass ≤ target_mass + tolerance))

/-- pandas Series.idxmax over the intensity column: the first row (in input
order) attaining the maximal intensity.  The fold replaces the current best
only on a strictly larger intensity, which keeps the earliest maximum. -/
def idxmax_intensity : List Peak → Option Peak
  | [] => none
  | p :: ps => some (ps.foldl (fun b q => if b.intensity < q.intensity then q else b) p)

/-- PeakAnalyzer.detect_product: returns (detected, detected mass, retention
time of the best in-tolerance match). -/
def detect_product (peaks : List Peak) (target_mass tolerance : ℚ) :
    Bool × Option ℚ × Option ℚ :=
  match idxmax_intensity (mass_matches peaks target_mass tolerance) with
  | none => (false, none, none)
  | some best => (true, some best.mass, some best.retention_time)

/-- Written from the claim text of C1 (not from the source): select the
in-tolerance peak of maximum intensity, breaking intensity ties by the
earliest retention time. -/
def claim_best_peak : List Peak → Option Peak
  | [] => none
  | p :: ps => some (ps.foldl (fun b q =>
      if q.intensity > b.intensity ∨
         (q.intensity = b.intensity ∧ q.retention_time < b.retention_time)
      then q else b) p)

/-- Written from the claim text of C1: detect_product as the claim words it,
with intensity ties broken by earliest retention time. -/
def claim_detect_product (peaks : List Peak) (target_mass tolerance : ℚ) :
    Bool × Option ℚ × Option ℚ :=
  match claim_best_peak (mass_matches peaks target_mass tolerance) with
  | none => (false, none, none)
  | some best => (true, some best.mass, some best.retention_time)

/-- The retention-time window filter of PeakAnalyzer.calculate_purity
(inclusive bounds). -/
def window_data (chromatogram : List Peak) (tmin tmax : ℚ) : List Peak :=
  chromatogram.filter (fun p =>
    decide (tmin ≤ p.retention_time ∧ p.retention_time ≤ tmax))

/-- window_data['area'].sum() -/
def sum_area (l : List Peak) : ℚ := (l.map Peak.area).sum

/-- window_data['area'].max() (pandas max over a nonempty column; the empty
case is never reached by calculate_purity). -/
def max_area : List Peak → ℚ
  | [] => 0
  | p :: ps => ps.foldl (fun m q => max m q.area) p.area

/-- PeakAnalyzer.calculate_purity: 100 * (largest in-window area) / (total
in-window area), capped at 100; 0.0 on an empty window or zero total area. -/
def calculate_purity (chromatogram : List Peak) (time_range : ℚ × ℚ) : ℚ :=
  let wd := window_data chromatogram time_range.1 time_range.2
  if wd = [] then 0
  else
    let total_area := sum_area wd
    if total_area = 0 then 0
    else min (max_area wd / total_area * 100) 100

end PeakAnalyzer

/-- The numeric fields of the dictionary returned by
MassCalculator.calculate_masses (the molecular-formula string is omitted:
it plays no role in any numeric claim). -/
structure MassProfile where
  monoisotopic_mass : ℚ
  mh_mass : ℚ
  mna_mass : ℚ
  mh_minus_mass : ℚ
deriving Repr, DecidableEq

/-- MassCalculator.calculate_masses.  The monoisotopic mass itself is produced
by the external RDKit structure parser (an out-of-scope collaborator), so it
is taken here as the input: for every notation the parser accepts, mono is
the exact mass it returns and the adduct masses are fixed offsets from it. -/
def calculate_masses (mono : ℚ) : MassProfile :=
  { monoisotopic_mass := mono
    mh_mass := mono + 1.0078
    mna_mass := mono + 22.9897
    mh_minus_mass := mono - 1.0073 }

/-- One row of a per-channel DataFrame handed to
ChannelAnalyzer.align_channels (columns retention_time, intensity). -/
structure ChanPoint where
  retention_time : ℚ
  intensity : ℚ
deriving Repr, DecidableEq

/-- One row of the aligned DataFrame built by align_channels. -/
structure AlignedRow where
  retention_time : ℚ
  ms_intensity : ℚ
  uv_intensity : ℚ
  rt_difference : ℚ
deriving Repr, DecidableEq

namespace ChannelAnalyzer

/-- The tolerance filter of align_channels: UV points with
ms_rt - tol <= rt <= ms_rt + tol. -/
def matching_uv (uv_data : List ChanPoint) (ms_rt rt_tolerance : ℚ) : List ChanPoint :=
  uv_data.filter (fun q =>
    decide (ms_rt - rt_tolerance ≤ q.retention_time ∧
            q.retention_time ≤ ms_rt + rt_tolerance))

/-- (matching_uv.retention_time - ms_rt).abs().argmin(): the first point (in
input order) minimising the absolute retention-time difference.  The fold
replaces only on a strictly smaller difference, keeping the first minimum. -/
def argmin_rtdiff (ms_rt : ℚ) : List ChanPoint → Option ChanPoint
  | [] => none
  | q :: qs => some (qs.foldl (fun b r =>
      if |r.retention_time - ms_rt| < |b.retention_time - ms_rt| then r else b) q)

/-- The body of the align_channels loop for one MS point: none when no UV
point lies within tolerance (the point is dropped). -/
def align_one (uv_data : List ChanPoint) (rt_tolerance : ℚ) (p : ChanPoint) :
    Option AlignedRow :=
  match argmin_rtdiff p.retention_time
      (matching_uv uv_data p.retention_time rt_tolerance) with
  | none => none
  | some c => some
      { retention_time := p.retention_time
        ms_intensity := p.intensity
        uv_intensity := c.intensity
        rt_difference := |p.retention_time - c.retention_time| }

/-- ChannelAnalyzer.align_channels: one output row per MS point that has a
UV point within rt_tolerance, in MS input order. -/
def align_channels (ms_data uv_data : List ChanPoint) (rt_tolerance : ℚ) :
    List AlignedRow :=
  ms_data.filterMap (align_one uv_data rt_tolerance)

/-- The scipy.stats.pearsonr constant-input test (x == x[0]).all(). -/
def all_eq_head : List ℚ → Bool
  | [] => true
  | v :: vs => vs.all (fun w => decide (w = v))

/-- Arithmetic mean of a column. -/
def mean (l : List ℚ) : ℚ := l.sum / l.length

/-- The exact rational data underlying a defined Pearson coefficient
r = num / sqrt(den_x * den_y): num = sum of dx*dy, den_x = sum of dx^2,
den_y = sum of dy^2 about the means.  The square root is irrational, so the
coefficient is carried as this triple; definedness is what the claims use. -/
structure PearsonData where
  num : ℚ
  den_x : ℚ
  den_y : ℚ
deriving Repr, DecidableEq

/-- scipy.stats.pearsonr, with NaN (constant input in either argument)
modelled as none; an input shorter than 2 (a ValueError in scipy) is also
none, a case no claim exercises. -/
def pearson_r (xs ys : List ℚ) : Option PearsonData :=
  if xs.length < 2 ∨ ys.length < 2 then none
  else if all_eq_head xs ∨ all_eq_head ys then none
  else
    let mx := mean xs
    let my := mean ys
    some { num := (List.zipWith (fun x y => (x - mx) * (y - my)) xs ys).sum
           den_x := (xs.map (fun x => (x - mx) ^ 2)).sum
           den_y := (ys.map (fun y => (y - my) ^ 2)).sum }

/-- The sliding window starting at row i: aligned_data.iloc[i : i + window_size]. -/
def corr_window (aligned_data : List AlignedRow) (i window_size : ℕ) : List AlignedRow :=
  (aligned_data.drop i).take window_size

/-- The moving-window loop of analyze_peak_correlation: for
i in range(len - window_size + 1), one entry (mean retention time, Pearson
coefficient of the window) advancing one row at a time. -/
def local_correlation (aligned_data : List AlignedRow) (window_size : ℕ) :
    List (ℚ × Option PearsonData) :=
  (List.range (aligned_data.length + 1 - window_size)).map (fun i =>
    let w := corr_window aligned_data i window_size
    (mean (w.map AlignedRow.retention_time),
     pearson_r (w.map AlignedRow.ms_intensity) (w.map AlignedRow.uv_intensity)))

/-- The correlation results of ChannelAnalyzer.analyze_peak_correlation that
the claims concern: the global Pearson coefficient over the whole aligned
set and the local sliding-window sequence. -/
def analyze_peak_correlation (aligned_data : List AlignedRow) (window_size : ℕ) :
    Option PearsonData × List (ℚ × Option PearsonData) :=
  (pearson_r (aligned_data.map AlignedRow.ms_intensity)
     (aligned_data.map AlignedRow.uv_intensity),
   local_correlation aligned_data window_size)

end ChannelAnalyzer

/-- Stable insertion of a into an ascending list: a goes before the first
element it is le-related to, so earlier-inserted equals stay first. -/
def insert_le (le : ℚ → ℚ → Bool) (a : ℚ) : List ℚ → List ℚ
  | [] => [a]
  | b :: bs => if le a b then a :: b :: bs else b :: insert_le le a bs

/-- Stable ascending insertion sort (numpy sort on rationals). -/
def sort_asc : List ℚ → List ℚ
  | [] => []
  | a :: as => insert_le (fun x y => decide (x ≤ y)) a (sort_asc as)

/-- np.percentile(l, q) with the default linear interpolation: on the sorted
values s of length n, the virtual index is h = q/100 * (n-1) and the result
interpolates between s[floor h] and s[floor h + 1].  numpy raises on an
empty input; that case (value 0 here) is never reached by the claims. -/
def np_percentile (l : List ℚ) (q : ℚ) : ℚ :=
  let s := sort_asc l
  let n := s.length
  let h := q / 100 * ((n : ℚ) - 1)
  let f := (Int.floor h).toNat
  if f + 1 < n then
    s.getD f 0 + (h - Int.floor h) * (s.getD (f + 1) 0 - s.getD f 0)
  else s.getD f 0

namespace PDAProcessor

/-- PDAProcessor._baseline_correction (the simple strategy): subtract the
5th-percentile value, clamp at zero. -/
def baseline_correction (spectrum : List ℚ) : List ℚ :=
  let baseline := np_percentile spectrum 5
  spectrum.map (fun v => max (v - baseline) 0)

/-- np.linspace(a, b, m) with endpoint=True. -/
def np_linspace (a b : ℚ) (m : ℕ) : List ℚ :=
  if m = 1 then [a]
  else (List.range m).map (fun i => a + (b - a) * i / ((m : ℚ) - 1))

/-- Sum of x^k over a list. -/
def pow_sum (xs : List ℚ) (k : ℕ) : ℚ := (xs.map (fun x => x ^ k)).sum

/-- Sum of x^k * y over paired lists. -/
def mix_sum (xs ys : List ℚ) (k : ℕ) : ℚ :=
  (List.zipWith (fun x y => x ^ k * y) xs ys).sum

/-- 3x3 determinant. -/
def det3 (a b c d e f g h i : ℚ) : ℚ :=
  a * (e * i - f * h) - b * (d * i - f * g) + c * (d * h - e * g)

/-- 4x4 determinant by expansion along the first row. -/
def det4 (m00 m01 m02 m03 m10 m11 m12 m13 m20 m21 m22 m23 m30 m31 m32 m33 : ℚ) : ℚ :=
  m00 * det3 m11 m12 m13 m21 m22 m23 m31 m32 m33
  - m01 * det3 m10 m12 m13 m20 m22 m23 m30 m32 m33
  + m02 * det3 m10 m11 m13 m20 m21 m23 m30 m31 m33
  - m03 * det3 m10 m11 m12 m20 m21 m22 m30 m31 m32

/-- np.polyfit(xs, ys, deg=3): the least-squares cubic, obtained here from
the 4x4 normal equations by Cramer's rule (coefficients highest degree
first, as numpy returns them).  On a singular system (fewer than 4 distinct
abscissae, where numpy's lstsq picks a minimum-norm solution) all
coefficients default to 0; no claim depends on that degenerate case and the
non-negativity conclusions below hold for any coefficient values. -/
def polyfit3 (xs ys : List ℚ) : ℚ × ℚ × ℚ × ℚ :=
  let s0 := (xs.length : ℚ)
  let s1 := pow_sum xs 1
  let s2 := pow_sum xs 2
  let s3 := pow_sum xs 3
  let s4 := pow_sum xs 4
  let s5 := pow_sum xs 5
  let s6 := pow_sum xs 6
  let t0 := mix_sum xs ys 0
  let t1 := mix_sum xs ys 1
  let t2 := mix_sum xs ys 2
  let t3 := mix_sum xs ys 3
  let d := det4 s6 s5 s4 s3 s5 s4 s3 s2 s4 s3 s2 s1 s3 s2 s1 s0
  if d = 0 then (0, 0, 0, 0)
  else
    (det4 t3 s5 s4 s3 t2 s4 s3 s2 t1 s3 s2 s1 t0 s2 s1 s0 / d,
     det4 s6 t3 s4 s3 s5 t2 s3 s2 s4 t1 s2 s1 s3 t0 s1 s0 / d,
     det4 s6 s5 t3 s3 s5 s4 t2 s2 s4 s3 t1 s1 s3 s2 t0 s0 / d,
     det4 s6 s5 s4 t3 s5 s4 s3 t2 s4 s3 s2 t1 s3 s2 s1 t0 / d)

/-- np.polyval for a cubic with coefficients highest degree first. -/
def polyval3 (c : ℚ × ℚ × ℚ × ℚ) (t : ℚ) : ℚ :=
  c.1 * t ^ 3 + c.2.1 * t ^ 2 + c.2.2.1 * t + c.2.2.2

/-- The anchor abscissae of _correct_baseline: range(0, n, ws). -/
def seg_starts (n ws : ℕ) : List ℕ :=
  (List.range ((n + ws - 1) / ws)).map (fun k => k * ws)

/-- PDAProcessor._correct_baseline (the iterative strategy): 5th-percentile
anchors over segments of size len//20, a least-squares cubic through the
anchors, the fitted curve clamped pointwise to the signal, subtracted, and
the difference clamped at zero.  A signal shorter than 20 points makes the
segment size 0, which in Python raises (range with step 0): modelled as
none. -/
def correct_baseline (signal : List ℚ) : Option (List ℚ) :=
  let ws := signal.length / 20
  if ws = 0 then none
  else
    let anchors := (seg_starts signal.length ws).map
      (fun i => np_percentile ((signal.drop i).take ws) 5)
    let xs := np_linspace 0 ((signal.length : ℚ) - 1) anchors.length
    let coeffs := polyfit3 xs anchors
    let baseline := (List.range signal.length).map (fun (i : ℕ) => polyval3 coeffs (i : ℚ))
    let clamped := List.zipWith min baseline signal
    some (List.zipWith (fun s b => max (s - b) 0) signal clamped)

/-- Python int() on a rational: truncation toward zero. -/
def pyInt (q : ℚ) : ℤ := Int.tdiv q.num q.den

/-- Column-wise mean of a nonempty list of equal-length rows
(np.mean(rows, axis=0)). -/
def col_mean : List (List ℚ) → List ℚ
  | [] => []
  | r :: rs => (rs.foldl (List.zipWith (· + ·)) r).map (fun v => v / ((rs.length : ℚ) + 1))

/-- PDAProcessor._extract_spectrum_at_rt: the time axis is assumed sampled
once per second, rt_index = int(rt * 60) and window = int(rt_window * 60);
rows with index in [max(0, rt_index - window), min(n, rt_index + window))
are averaged column-wise.  np.mean over an empty slice is NaN, modelled as
none.  (Negative target times would trigger Python negative-index
wraparound, a case outside every claim; the clamp to 0 here covers the
physical domain rt >= 0.) -/
def extract_spectrum_at_rt (pda_data : List (List ℚ)) (retention_time rt_window : ℚ) :
    Option (List ℚ) :=
  let rt_index := pyInt (retention_time * 60)
  let w := pyInt (rt_window * 60)
  let start := (max 0 (rt_index - w)).toNat
  let stop := (min (pda_data.length : ℤ) (rt_index + w)).toNat
  let rows := (pda_data.drop start).take (stop - start)
  if rows = [] then none else some (col_mean rows)

/-- Written from the claim text of C7 (not from the source): average exactly
the rows whose retention time lies within [target - halfwidth,
target + halfwidth], failing (none) when no row qualifies.  Retention times
are supplied explicitly; under the code's own sampling assumption row i sits
at i/60 minutes. -/
def claim_extract_window (pda_data : List (List ℚ)) (rts : List ℚ)
    (target halfwidth : ℚ) : Option (List ℚ) :=
  let rows := ((rts.zip pda_data).filter (fun p =>
    decide (target - halfwidth ≤ p.1 ∧ p.1 ≤ target + halfwidth))).map Prod.snd
  if rows = [] then none else some (col_mean rows)

/-- The retention-time axis the source assumes for a PDA matrix: one row per
second, row i at i/60 minutes. -/
def assumed_axis (pda_data : List (List ℚ)) : List ℚ :=
  (List.range pda_data.length).map (fun i => (i : ℚ) / 60)

end PDAProcessor

namespace SciPy

/-- The plateau scan of scipy _local_maxima_1d: advance i_ahead while
i_ahead < i_max and x[i_ahead] equals the candidate value.  Fuel-bounded;
the callers pass fuel >= x.length, which the loop can never exhaust. -/
def plateau_end (x : List ℚ) (i_max : ℕ) (v : ℚ) : ℕ → ℕ → ℕ
  | 0, i => i
  | fuel + 1, i =>
      if i < i_max ∧ x.getD i 0 = v then plateau_end x i_max v fuel (i + 1) else i

/-- The main loop of scipy _local_maxima_1d: for 1 <= i < n - 1, a candidate
starts where x[i-1] < x[i]; its plateau ends at i_ahead, and if
x[i_ahead] < x[i] the midpoint (i + (i_ahead - 1)) / 2 is a peak and the
scan resumes at i_ahead + 1. -/
def local_maxima_aux (x : List ℚ) (i_max : ℕ) : ℕ → ℕ → List ℕ
  | 0, _ => []
  | fuel + 1, i =>
      if i < i_max then
        if x.getD (i - 1) 0 < x.getD i 0 then
          let ia := plateau_end x i_max (x.getD i 0) x.length (i + 1)
          if x.getD ia 0 < x.getD i 0 then
            ((i + (ia - 1)) / 2) :: local_maxima_aux x i_max fuel (ia + 1)
          else local_maxima_aux x i_max fuel (i + 1)
        else local_maxima_aux x i_max fuel (i + 1)
      else []

/-- scipy _local_maxima_1d: indices of the strict local maxima (plateau
midpoints), in increasing order.  Series with fewer than 3 points have no
interior sample, hence no maxima. -/
def local_maxima_1d (x : List ℚ) : List ℕ :=
  local_maxima_aux x (x.length - 1) x.length 1

/-- Stable insertion for the argsort below. -/
def argsort_insert (priority : List ℚ) (a : ℕ) : List ℕ → List ℕ
  | [] => [a]
  | b :: bs =>
      if priority.getD a 0 ≤ priority.getD b 0 then a :: b :: bs
      else b :: argsort_insert priority a bs

/-- np.argsort(priority), modelled as a stable ascending sort of the index
list.  (numpy's default introsort is unstable on ties; off ties the two
agree, and no claim exercises a tie here.) -/
def argsort_aux (priority : List ℚ) : List ℕ → List ℕ
  | [] => []
  | i :: is => argsort_insert priority i (argsort_aux priority is)

/-- Index permutation sorting priority ascending. -/
def argsort (priority : List ℚ) : List ℕ :=
  argsort_aux priority (List.range priority.length)

/-- The leftward sweep of scipy _select_by_peak_distance: flag neighbours
below index j that are closer than d samples.  The argument k + 1 encodes
the current index k, 0 encoding that the loop has run past index 0.
peaks is ascending, so natural subtraction matches the source. -/
def clear_down (peaks : List ℕ) (pj d : ℕ) : ℕ → List Bool → List Bool
  | 0, keep => keep
  | k + 1, keep =>
      if pj - peaks.getD k 0 < d then clear_down peaks pj d k (keep.set k false)
      else keep

/-- The rightward sweep of _select_by_peak_distance. -/
def clear_up (peaks : List ℕ) (pj d n : ℕ) : ℕ → ℕ → List Bool → List Bool
  | 0, _, keep => keep
  | fuel + 1, k, keep =>
      if k < n ∧ peaks.getD k 0 - pj < d then
        clear_up peaks pj d n fuel (k + 1) (keep.set k false)
      else keep

/-- The outer loop of _select_by_peak_distance: visit peaks from highest to
lowest priority; a peak already discarded is skipped, a surviving one
discards all neighbours closer than d samples. -/
def sbd_loop (peaks : List ℕ) (d : ℕ) : List ℕ → List Bool → List Bool
  | [], keep => keep
  | j :: rest, keep =>
      if keep.getD j true then
        let pj := peaks.getD j 0
        let k1 := clear_down peaks pj d j keep
        let k2 := clear_up peaks pj d peaks.length (peaks.length + 1) (j + 1) k1
        sbd_loop peaks d rest k2
      else sbd_loop peaks d rest keep

/-- scipy _select_by_peak_distance: the keep mask after enforcing the
minimal sample distance d between accepted peaks. -/
def select_by_peak_distance (peaks : List ℕ) (priority : List ℚ) (d : ℕ) : List Bool :=
  sbd_loop peaks d (argsort priority).reverse (List.replicate peaks.length true)

/-- The leftward walk of scipy _peak_prominences: from the peak, extend while
x[i] <= x[peak], tracking the minimum value and its position (the base). -/
def walk_left (x : List ℚ) (pv : ℚ) (i : ℕ) (m : ℚ) (b : ℕ) : ℚ × ℕ :=
  if x.getD i 0 ≤ pv then
    let xi := x.getD i 0
    let m2 := if xi < m then xi else m
    let b2 := if xi < m then i else b
    if h : i = 0 then (m2, b2) else walk_left x pv (i - 1) m2 b2
  else (m, b)
termination_by i
decreasing_by exact Nat.sub_lt (Nat.pos_of_ne_zero h) Nat.one_pos

/-- The rightward walk of _peak_prominences (fuel-bounded; callers pass
fuel > i_max, which the loop can never exhaust). -/
def walk_right (x : List ℚ) (pv : ℚ) (i_max : ℕ) : ℕ → ℕ → ℚ → ℕ → ℚ × ℕ
  | 0, _, m, b => (m, b)
  | fuel + 1, i, m, b =>
      if i ≤ i_max ∧ x.getD i 0 ≤ pv then
        if x.getD i 0 < m then walk_right x pv i_max fuel (i + 1) (x.getD i 0) i
        else walk_right x pv i_max fuel (i + 1) m b
      else (m, b)

/-- Per-peak result of scipy _peak_prominences (wlen unset everywhere in
this repository). -/
structure PromData where
  prominence : ℚ
  left_base : ℕ
  right_base : ℕ
deriving Repr, DecidableEq

/-- scipy peak_prominences with wlen=None. -/
def peak_prominences (x : List ℚ) (peaks : List ℕ) : List PromData :=
  peaks.map (fun p =>
    let pv := x.getD p 0
    let lm := walk_left x pv p pv p
    let rm := walk_right x pv (x.length - 1) (x.length + 1) p pv p
    { prominence := pv - max lm.1 rm.1, left_base := lm.2, right_base := rm.2 })

/-- The leftward walk of scipy _peak_widths: from the peak, step left while
the base has not been reached and the signal stays above the evaluation
height. -/
def wleft (x : List ℚ) (height : ℚ) (i_min : ℕ) (i : ℕ) : ℕ :=
  if h : i_min < i ∧ height < x.getD i 0 then wleft x height i_min (i - 1)
  else i
termination_by i
decreasing_by exact Nat.sub_lt (Nat.lt_of_le_of_lt (Nat.zero_le i_min) h.1) Nat.one_pos

/-- The rightward walk of _peak_widths (fuel-bounded). -/
def wright (x : List ℚ) (height : ℚ) (i_max : ℕ) : ℕ → ℕ → ℕ
  | 0, i => i
  | fuel + 1, i =>
      if i < i_max ∧ height < x.getD i 0 then wright x height i_max fuel (i + 1)
      else i

/-- Per-peak result of scipy peak_widths at rel_height=0.5. -/
structure WidthData where
  width : ℚ
  width_height : ℚ
  left_ip : ℚ
  right_ip : ℚ
deriving Repr, DecidableEq

/-- scipy peak_widths(x, peaks, rel_height=0.5): the evaluation height is
x[peak] - prominence/2; the crossing points are linearly interpolated. -/
def peak_widths (x : List ℚ) (peaks : List ℕ) : List WidthData :=
  let proms := peak_prominences x peaks
  List.zipWith (fun p pd =>
    let height := x.getD p 0 - pd.prominence * (1 / 2)
    let il := wleft x height pd.left_base p
    let left_ip : ℚ :=
      if x.getD il 0 < height then
        (il : ℚ) + (height - x.getD il 0) / (x.getD (il + 1) 0 - x.getD il 0)
      else (il : ℚ)
    let ir := wright x height pd.right_base (x.length + 1) p
    let right_ip : ℚ :=
      if x.getD ir 0 < height then
        (ir : ℚ) - (height - x.getD ir 0) / (x.getD (ir - 1) 0 - x.getD ir 0)
      else (ir : ℚ)
    { width := right_ip - left_ip, width_height := height
      left_ip := left_ip, right_ip := right_ip }) peaks proms

/-- scipy find_peaks restricted to the keyword arguments this repository
uses (height, distance, prominence, width; no threshold, plateau_size or
wlen).  Returns the surviving peak indices together with the prominences
entry of the properties dict: present exactly when a prominence or width
constraint was supplied, absent (none) otherwise. -/
def find_peaks (x : List ℚ) (height : Option ℚ) (distance : Option ℕ)
    (prominence : Option ℚ) (width : Option ℚ) : List ℕ × Option (List PromData) :=
  let p1 := local_maxima_1d x
  let p2 := match height with
    | none => p1
    | some hmin => p1.filter (fun p => decide (hmin ≤ x.getD p 0))
  let p3 := match distance with
    | none => p2
    | some d =>
        let keep := select_by_peak_distance p2 (p2.map (fun p => x.getD p 0)) d
        (p2.zip keep).filterMap (fun pk => if pk.2 then some pk.1 else none)
  match prominence, width with
  | none, none => (p3, none)
  | some pmin, none =>
      let kept := (p3.zip (peak_prominences x p3)).filter
        (fun ppr => decide (pmin ≤ ppr.2.prominence))
      (kept.map Prod.fst, some (kept.map Prod.snd))
  | none, some wmin =>
      let kept := ((p3.zip (peak_prominences x p3)).zip (peak_widths x p3)).filter
        (fun z => decide (wmin ≤ z.2.width))
      (kept.map (fun z => z.1.1), some (kept.map (fun z => z.1.2)))
  | some pmin, some wmin =>
      let keptp := (p3.zip (peak_prominences x p3)).filter
        (fun ppr => decide (pmin ≤ ppr.2.prominence))
      let p4 := keptp.map Prod.fst
      let kept := ((p4.zip (keptp.map Prod.snd)).zip (peak_widths x p4)).filter
        (fun z => decide (wmin ≤ z.2.width))
      (kept.map (fun z => z.1.1), some (kept.map (fun z => z.1.2)))

/-- np.trapz(y) with unit spacing. -/
def trapz1 : List ℚ → ℚ
  | y1 :: y2 :: ys => (y1 + y2) / 2 + trapz1 (y2 :: ys)
  | _ => 0

/-- np.trapz(y, x). -/
def trapz_xy : List ℚ → List ℚ → ℚ
  | y1 :: y2 :: ys, x1 :: x2 :: xs => (x2 - x1) * (y1 + y2) / 2 + trapz_xy (y2 :: ys) (x2 :: xs)
  | _, _ => 0

end SciPy

namespace PeakDetector

/-- One row of the DataFrame built by PeakDetector.detect_peaks. -/
structure DetRow where
  retention_time : ℚ
  intensity : ℚ
  prominence : ℚ
  width : ℚ
  width_start : ℚ
  width_end : ℚ
  area : ℚ
deriving Repr, DecidableEq

/-- numpy astype(int) on a non-negative interpolated index: truncation. -/
def ip_to_idx (q : ℚ) : ℕ := (Int.floor q).toNat

/-- The scipy find_peaks validation: a supplied distance below 1 is
rejected. -/
def distance_invalid : Option ℕ → Bool
  | some dv => decide (dv < 1)
  | none => false

/-- PeakDetector.detect_peaks.  Failure is modelled with Except: scipy
rejects a distance below 1, and the row construction reads
properties[prominences], a key find_peaks only creates when a prominence or
width constraint was supplied — with neither, the lookup is an unconditional
KeyError on every input.  rt is the parallel retention-time axis (same
length as intensity in every call site). -/
def detect_peaks (intensity rt : List ℚ) (height : Option ℚ) (distance : Option ℕ)
    (prominence : Option ℚ) (width : Option ℚ) : Except String (List DetRow) :=
  if distance_invalid distance then
    Except.error "distance must be greater or equal to 1"
  else
    let fp := SciPy.find_peaks intensity height distance prominence width
    let wd := SciPy.peak_widths intensity fp.1
    match fp.2 with
    | none => Except.error "KeyError: prominences"
    | some proms =>
        Except.ok (List.zipWith (fun pw pr =>
          let p := pw.1
          let w := pw.2
          let l := ip_to_idx w.left_ip
          let r := ip_to_idx w.right_ip
          { retention_time := rt.getD p 0
            intensity := intensity.getD p 0
            prominence := pr.prominence
            width := w.width
            width_start := rt.getD l 0
            width_end := rt.getD r 0
            area := SciPy.trapz1 ((intensity.drop l).take (r - l)) })
          (fp.1.zip wd) proms)

end PeakDetector

namespace PeakAnalyzer

/-- One row of the DataFrame built by PeakAnalyzer.find_peaks_in_spectrum. -/
structure SpecRow where
  retention_time : ℚ
  intensity : ℚ
  area : ℚ
  width : ℚ
deriving Repr, DecidableEq

/-- np.max over a nonempty array (the empty case raises and is guarded by
the caller below). -/
def list_max : List ℚ → ℚ
  | [] => 0
  | a :: as => as.foldl max a

/-- PeakAnalyzer.find_peaks_in_spectrum: normalise by the maximum intensity,
run scipy find_peaks with a height threshold and minimal distance, measure
half-height widths, and integrate each peak trapezoidally.  Failures are the
ones the Python code actually produces: np.max on an empty array, the scipy
distance validation, and the unconditional read of time[1] - time[0] in the
result construction (an IndexError whenever the series has fewer than 2
points).  No EmptySeriesError exists anywhere in the source. -/
def find_peaks_in_spectrum (time intensity : List ℚ)
    (height_threshold : ℚ) (distance : ℕ) : Except String (List SpecRow) :=
  if intensity = [] then
    Except.error "zero-size array to reduction operation maximum"
  else
    let norm := intensity.map (fun v => v / list_max intensity)
    if distance < 1 then Except.error "distance must be greater or equal to 1"
    else
      let fp := SciPy.find_peaks norm (some height_threshold) (some distance) none none
      let wd := SciPy.peak_widths norm fp.1
      if time.length < 2 then Except.error "index 1 is out of bounds"
      else
        Except.ok (List.zipWith (fun p w =>
          let l := PeakDetector.ip_to_idx w.left_ip
          let r := PeakDetector.ip_to_idx w.right_ip
          { retention_time := time.getD p 0
            intensity := intensity.getD p 0
            area := SciPy.trapz_xy ((intensity.drop l).take (r - l))
              ((time.drop l).take (r - l))
            width := w.width * (time.getD 1 0 - time.getD 0 0) })
          fp.1 wd)

end PeakAnalyzer

/-- The fields of AnalysisResult that DataProcessor.process_sample fills
from the mass calculation, product detection and purity steps. -/
structure AnalysisResult where
  monoisotopic_mass : ℚ
  mh_mass : ℚ
  mna_mass : ℚ
  mh_minus_mass : ℚ
  product_detected : Bool
  detected_mass : Option ℚ
  retention_time : Option ℚ
  purity : ℚ
deriving Repr, DecidableEq

/-- DataProcessor.process_sample, after the external file read: the mass
profile is computed from the parsed structure (mono, supplied by the RDKit
collaborator), detect_product is called once, on the MS peak table, with
target_mass = mh_mass and the fixed tolerance 0.5, and purity is computed on
the PDA table over the fixed window (0.2, 2.5).  The sodiated and
deprotonated masses are stored in the result and used nowhere else. -/
def process_sample (ms_data pda_data : List Peak) (mono : ℚ) : AnalysisResult :=
  let mass_results := calculate_masses mono
  let det := PeakAnalyzer.detect_product ms_data mass_results.mh_mass 0.5
  { monoisotopic_mass := mass_results.monoisotopic_mass
    mh_mass := mass_results.mh_mass
    mna_mass := mass_results.mna_mass
    mh_minus_mass := mass_results.mh_minus_mass
    product_detected := det.1
    detected_mass := det.2.1
    retention_time := det.2.2
    purity := PeakAnalyzer.calculate_purity pda_data (0.2, 2.5) }

/-- The peak table of the spec scenario for detect_product:
retention_time=[1.2,1.8,2.3], mass=[410.1828,432.1647,408.1677],
intensity=[1e6,5e5,2.5e5] (areas unused by detect_product). -/
def scenario_peaks : List Peak :=
  [{ retention_time := 1.2, mass := 410.1828, intensity := 1000000, area := 0 },
   { retention_time := 1.8, mass := 432.1647, intensity := 500000, area := 0 },
   { retention_time := 2.3, mass := 408.1677, intensity := 250000, area := 0 }]

/-- The peak table of the unit-test fixture for calculate_purity (areas
2e6, 1e6, 5e5, 2e5 at retention times 0.5, 1.2, 1.8, 2.3). -/
def purity_peaks : List Peak :=
  [{ retention_time := 0.5, mass := 410.1828, intensity := 1000000, area := 2000000 },
   { retention_time := 1.2, mass := 432.1647, intensity := 500000, area := 1000000 },
   { retention_time := 1.8, mass := 408.1677, intensity := 250000, area := 500000 },
   { retention_time := 2.3, mass := 411.0, intensity := 100000, area := 200000 }]

/-- Two peaks with equal intensity and equal in-tolerance mass, listed with
the later retention time first: a tie detect_product resolves by input
position, not by earliest retention time. -/
def tie_peaks : List Peak :=
  [{ retention_time := 2, mass := 410, intensity := 5, area := 0 },
   { retention_time := 1, mass := 410, intensity := 5, area := 0 }]

/-- A 3-row, 1-column PDA matrix (rows at 0, 1 and 2 seconds under the
sampling the source assumes). -/
def c7_matrix : List (List ℚ) := [[0], [0], [3]]

/-- Five aligned rows with constant MS intensity (a flat, zero-variance
window) and non-constant UV intensity. -/
def flat_rows : List AlignedRow :=
  [{ retention_time := 1, ms_intensity := 7, uv_intensity := 1, rt_difference := 0 },
   { retention_time := 2, ms_intensity := 7, uv_intensity := 2, rt_difference := 0 },
   { retention_time := 3, ms_intensity := 7, uv_intensity := 5, rt_difference := 0 },
   { retention_time := 4, ms_intensity := 7, uv_intensity := 3, rt_difference := 0 },
   { retention_time := 5, ms_intensity := 7, uv_intensity := 4, rt_difference := 0 }]

/-! ## Helper lemmas -/

/-- A strict-improvement fold keeps the first maximum: the result splits the
input so that everything before it is strictly smaller and nothing anywhere
is larger. -/
theorem foldl_max_decomp {α : Type} (key : α → ℚ) (p : α) (ps : List α) :
    ∃ l1 l2, p :: ps = l1 ++ (ps.foldl (fun b q => if key b < key q then q else b) p) :: l2 ∧
      (∀ q ∈ p :: ps, key q ≤ key (ps.foldl (fun b q => if key b < key q then q else b) p)) ∧
      (∀ q ∈ l1, key q < key (ps.foldl (fun b q => if key b < key q then q else b) p)) := by
  induction ps generalizing p with
  | nil => exact ⟨[], [], rfl, by simp, by simp⟩
  | cons q tl ih =>
    by_cases hpq : key p < key q
    · obtain ⟨l1, l2, hdec, hmax, hlt⟩ := ih q
      refine ⟨p :: l1, l2, ?_, ?_, ?_⟩
      · simpa [if_pos hpq] using congrArg (p :: ·) hdec
      · intro r hr
        rcases List.mem_cons.1 hr with rfl | hr
        · simp only [List.foldl_cons, if_pos hpq]
          exact le_of_lt (lt_of_lt_of_le hpq (hmax q (List.mem_cons_self q tl)))
        · simpa [if_pos hpq] using hmax r hr
      · intro r hr
        rcases List.mem_cons.1 hr with rfl | hr
        · simp only [List.foldl_cons, if_pos hpq]
          exact lt_of_lt_of_le hpq (hmax q (List.mem_cons_self q tl))
        · simpa [if_pos hpq] using hlt r hr
    · obtain ⟨l1, l2, hdec, hmax, hlt⟩ := ih p
      have hqp : key q ≤ key p := le_of_not_lt hpq
      have hple : key p ≤ key (tl.foldl (fun b q => if key b < key q then q else b) p) :=
        hmax p (List.mem_cons_self p tl)
      cases l1 with
      | nil =>
        simp only [List.nil_append] at hdec
        have hBp : tl.foldl (fun b q => if key b < key q then q else b) p = p :=
          (List.cons.inj hdec).1.symm
        refine ⟨[], q :: tl, ?_, ?_, by simp⟩
        · simp only [List.foldl_cons, if_neg hpq, List.nil_append, hBp]
        · intro r hr
          simp only [List.foldl_cons, if_neg hpq]
          rcases List.mem_cons.1 hr with rfl | hr
          · exact hple
          · rcases List.mem_cons.1 hr with rfl | hr
            · exact le_trans hqp hple
            · exact hmax r (List.mem_cons_of_mem p hr)
      | cons a l1t =>
        have hdec2 : p :: tl = a :: (l1t ++ tl.foldl (fun b q => if key b < key q then q else b) p :: l2) := by
          simpa using hdec
        have hap : a = p := (List.cons.inj hdec2).1.symm
        have htl : tl = l1t ++ tl.foldl (fun b q => if key b < key q then q else b) p :: l2 :=
          (List.cons.inj hdec2).2
        have hpB : key p < key (tl.foldl (fun b q => if key b < key q then q else b) p) := by
          have := hlt a (List.mem_cons_self a l1t)
          rwa [hap] at this
        refine ⟨p :: q :: l1t, l2, ?_, ?_, ?_⟩
        · simp only [List.foldl_cons, if_neg hpq, List.cons_append]
          exact congrArg (fun t => p :: q :: t) htl
        · intro r hr
          simp only [List.foldl_cons, if_neg hpq]
          rcases List.mem_cons.1 hr with rfl | hr
          · exact hple
          · rcases List.mem_cons.1 hr with rfl | hr
            · exact le_trans hqp hple
            · exact hmax r (List.mem_cons_of_mem p hr)
        · intro r hr
          simp only [List.foldl_cons, if_neg hpq]
          rcases List.mem_cons.1 hr with rfl | hr
          · exact hpB
          · rcases List.mem_cons.1 hr with rfl | hr
            · exact lt_of_le_of_lt hqp hpB
            · exact hlt r (List.mem_cons_of_mem a hr)

/-- detect_product reports a detection exactly when the mass filter is
nonempty. -/
theorem detect_product_fst_iff (peaks : List Peak) (t tol : ℚ) :
    (PeakAnalyzer.detect_product peaks t tol).1 = true ↔
      PeakAnalyzer.mass_matches peaks t tol ≠ [] := by
  unfold PeakAnalyzer.detect_product
  cases h : PeakAnalyzer.mass_matches peaks t tol with
  | nil => simp [PeakAnalyzer.idxmax_intensity]
  | cons p ps => simp [PeakAnalyzer.idxmax_intensity]

/-- Membership in the mass filter unpacked. -/
theorem mem_mass_matches {peaks : List Peak} {t tol : ℚ} {p : Peak} :
    p ∈ PeakAnalyzer.mass_matches peaks t tol ↔
      p ∈ peaks ∧ t - tol ≤ p.mass ∧ p.mass ≤ t + tol := by
  simp [PeakAnalyzer.mass_matches, List.mem_filter]

/-- A fold by max is bounded below by its initial accumulator. -/
theorem le_foldl_max_area (ps : List Peak) (a : ℚ) :
    a ≤ ps.foldl (fun m q => max m q.area) a := by
  induction ps generalizing a with
  | nil => exact le_refl a
  | cons q tl ih => exact le_trans (le_max_left a q.area) (ih (max a q.area))

/-- The largest in-window area is non-negative when all areas are. -/
theorem max_area_nonneg {l : List Peak} (hne : l ≠ [])
    (hA : ∀ p ∈ l, 0 ≤ p.area) : 0 ≤ PeakAnalyzer.max_area l := by
  cases l with
  | nil => exact absurd rfl hne
  | cons p ps =>
    exact le_trans (hA p (List.mem_cons_self p ps)) (le_foldl_max_area ps p.area)

/-- The total area is non-negative when all areas are. -/
theorem sum_area_nonneg {l : List Peak} (hA : ∀ p ∈ l, 0 ≤ p.area) :
    0 ≤ PeakAnalyzer.sum_area l := by
  apply List.sum_nonneg
  intro x hx
  obtain ⟨p, hp, rfl⟩ := List.mem_map.1 hx
  exact hA p hp

/-! ## Claim theorems -/

/-- Claim C1, counterexample: two in-tolerance peaks of equal intensity,
the later retention time listed first.  detect_product (pandas idxmax)
returns the first listed row, retention time 2; the claim's tie-break by
earliest retention time demands retention time 1. -/
theorem detect_product_tie_counterexample :
    PeakAnalyzer.detect_product tie_peaks 410 0.5 = (true, some 410, some 2) ∧
    PeakAnalyzer.claim_detect_product tie_peaks 410 0.5 = (true, some 410, some 1) ∧
    PeakAnalyzer.detect_product tie_peaks 410 0.5 ≠
      PeakAnalyzer.claim_detect_product tie_peaks 410 0.5 := by
  refine ⟨?_, ?_, ?_⟩ <;>
    norm_num [PeakAnalyzer.detect_product, PeakAnalyzer.claim_detect_product,
      PeakAnalyzer.mass_matches, PeakAnalyzer.idxmax_intensity,
      PeakAnalyzer.claim_best_peak, tie_peaks, List.filter]

/-- Claim C1 (amended): detect_product returns not-detected exactly when no
peak mass lies within [target - tolerance, target + tolerance]; otherwise it
returns the mass and retention time of the in-tolerance peak of maximum
intensity, breaking intensity ties by first position in the input order
(which is earliest retention time whenever the input is sorted by retention
time).  The two spec scenarios hold as stated. -/
theorem detect_product_first_max (peaks : List Peak) (t tol : ℚ) :
    ((PeakAnalyzer.detect_product peaks t tol).1 = true ↔
       PeakAnalyzer.mass_matches peaks t tol ≠ []) ∧
    (∀ m rt, PeakAnalyzer.detect_product peaks t tol = (true, some m, some rt) →
       ∃ l1 p l2, PeakAnalyzer.mass_matches peaks t tol = l1 ++ p :: l2 ∧
         p.mass = m ∧ p.retention_time = rt ∧
         (∀ q ∈ PeakAnalyzer.mass_matches peaks t tol, q.intensity ≤ p.intensity) ∧
         (∀ q ∈ l1, q.intensity < p.intensity)) ∧
    PeakAnalyzer.detect_product scenario_peaks 410.18 0.5 =
      (true, some 410.1828, some 1.2) ∧
    PeakAnalyzer.detect_product scenario_peaks 415.0 0.1 = (false, none, none) := by
  refine ⟨detect_product_fst_iff peaks t tol, ?_,
    by norm_num [PeakAnalyzer.detect_product, PeakAnalyzer.mass_matches,
      PeakAnalyzer.idxmax_intensity, scenario_peaks, List.filter],
    by norm_num [PeakAnalyzer.detect_product, PeakAnalyzer.mass_matches,
      PeakAnalyzer.idxmax_intensity, scenario_peaks, List.filter]⟩
  intro m rt h
  unfold PeakAnalyzer.detect_product at h
  cases hmm : PeakAnalyzer.mass_matches peaks t tol with
  | nil => rw [hmm] at h; simp [PeakAnalyzer.idxmax_intensity] at h
  | cons p0 ps0 =>
    rw [hmm] at h
    simp only [PeakAnalyzer.idxmax_intensity] at h
    obtain ⟨l1, l2, hdec, hmax, hlt⟩ := foldl_max_decomp Peak.intensity p0 ps0
    set B := ps0.foldl (fun b q => if b.intensity < q.intensity then q else b) p0 with hB
    have hBm : B.mass = m := by
      have := congrArg (fun z => z.2.1) h
      simpa using this
    have hBrt : B.retention_time = rt := by
      have := congrArg (fun z => z.2.2) h
      simpa using this
    exact ⟨l1, B, l2, hdec, hBm, hBrt, hmax, hlt⟩

/-- Claim C1 witness: the amended theorem applied to the tie scenario. -/
theorem detect_product_first_max_witness :
    ∃ l1 p l2, PeakAnalyzer.mass_matches tie_peaks 410 0.5 = l1 ++ p :: l2 ∧
      p.mass = 410 ∧ p.retention_time = 2 ∧
      (∀ q ∈ PeakAnalyzer.mass_matches tie_peaks 410 0.5, q.intensity ≤ p.intensity) ∧
      (∀ q ∈ l1, q.intensity < p.intensity) :=
  (detect_product_first_max tie_peaks 410 0.5).2.1 410 2
    (by norm_num [PeakAnalyzer.detect_product, PeakAnalyzer.mass_matches,
      PeakAnalyzer.idxmax_intensity, tie_peaks, List.filter])

/-- Claim C2: calculate_purity returns 0.0 on an empty window (in particular
on an empty peak set, without raising) and on a zero total area; otherwise
it is 100 * (largest in-window area) / (total in-window area) capped at
100.0, and in every case the result lies in [0, 100] for non-negative
areas. -/
theorem calculate_purity_bounds (chrom : List Peak) (tmin tmax : ℚ)
    (hA : ∀ p ∈ chrom, 0 ≤ p.area) :
    (PeakAnalyzer.window_data chrom tmin tmax = [] →
       PeakAnalyzer.calculate_purity chrom (tmin, tmax) = 0) ∧
    (PeakAnalyzer.sum_area (PeakAnalyzer.window_data chrom tmin tmax) = 0 →
       PeakAnalyzer.calculate_purity chrom (tmin, tmax) = 0) ∧
    0 ≤ PeakAnalyzer.calculate_purity chrom (tmin, tmax) ∧
    PeakAnalyzer.calculate_purity chrom (tmin, tmax) ≤ 100 ∧
    (PeakAnalyzer.window_data chrom tmin tmax ≠ [] →
       PeakAnalyzer.sum_area (PeakAnalyzer.window_data chrom tmin tmax) ≠ 0 →
       PeakAnalyzer.calculate_purity chrom (tmin, tmax) =
         min (PeakAnalyzer.max_area (PeakAnalyzer.window_data chrom tmin tmax) /
              PeakAnalyzer.sum_area (PeakAnalyzer.window_data chrom tmin tmax) * 100)
             100) := by
  have hwdsub : ∀ p ∈ PeakAnalyzer.window_data chrom tmin tmax, 0 ≤ p.area := by
    intro p hp
    exact hA p (List.mem_filter.1 hp).1
  have heq : PeakAnalyzer.calculate_purity chrom (tmin, tmax) =
      if PeakAnalyzer.window_data chrom tmin tmax = [] then 0
      else if PeakAnalyzer.sum_area (PeakAnalyzer.window_data chrom tmin tmax) = 0 then 0
      else min (PeakAnalyzer.max_area (PeakAnalyzer.window_data chrom tmin tmax) /
                PeakAnalyzer.sum_area (PeakAnalyzer.window_data chrom tmin tmax) * 100)
               100 := rfl
  rw [heq]
  split_ifs with h1 h2
  · exact ⟨fun _ => rfl, fun _ => rfl, le_refl 0, by norm_num, fun hne _ => absurd h1 hne⟩
  · exact ⟨fun hh => absurd hh h1, fun _ => rfl, le_refl 0, by norm_num,
      fun _ hne => absurd h2 hne⟩
  · have htpos : 0 < PeakAnalyzer.sum_area (PeakAnalyzer.window_data chrom tmin tmax) :=
      lt_of_le_of_ne (sum_area_nonneg hwdsub) (Ne.symm h2)
    have hmnn : 0 ≤ PeakAnalyzer.max_area (PeakAnalyzer.window_data chrom tmin tmax) :=
      max_area_nonneg h1 hwdsub
    exact ⟨fun hh => absurd hh h1, fun hh => absurd hh h2,
      le_min (mul_nonneg (div_nonneg hmnn (le_of_lt htpos)) (by norm_num)) (by norm_num),
      min_le_right _ _, fun _ _ => rfl⟩

/-- Claim C2 witness: the bounds at the test-fixture peak table and the
empty-input scenario. -/
theorem calculate_purity_bounds_witness :
    (0 ≤ PeakAnalyzer.calculate_purity purity_peaks (0.2, 2.5) ∧
     PeakAnalyzer.calculate_purity purity_peaks (0.2, 2.5) ≤ 100) ∧
    PeakAnalyzer.calculate_purity [] (0.2, 2.5) = 0 :=
  ⟨⟨(calculate_purity_bounds purity_peaks 0.2 2.5 (by norm_num [purity_peaks])).2.2.1,
    (calculate_purity_bounds purity_peaks 0.2 2.5 (by norm_num [purity_peaks])).2.2.2.1⟩,
   (calculate_purity_bounds [] 0.2 2.5 (by simp)).1
     (by simp [PeakAnalyzer.window_data])⟩

/-- Claim C3: for every structure the external parser accepts (mono is the
monoisotopic mass it returns), the MassProfile satisfies
mh - mono = 1.0078, mna - mono = 22.9897 and mono - mh_minus = 1.0073,
within 1e-4 Da (here the offsets are exact rationals, so the differences
are exactly the stated constants). -/
theorem calculate_masses_adduct_offsets (mono : ℚ) :
    |(calculate_masses mono).mh_mass - (calculate_masses mono).monoisotopic_mass
      - 1.0078| ≤ 1 / 10000 ∧
    |(calculate_masses mono).mna_mass - (calculate_masses mono).monoisotopic_mass
      - 22.9897| ≤ 1 / 10000 ∧
    |(calculate_masses mono).monoisotopic_mass - (calculate_masses mono).mh_minus_mass
      - 1.0073| ≤ 1 / 10000 := by
  have h1 : (calculate_masses mono).mh_mass - (calculate_masses mono).monoisotopic_mass
      - 1.0078 = 0 := by
    simp [calculate_masses]
  have h2 : (calculate_masses mono).mna_mass - (calculate_masses mono).monoisotopic_mass
      - 22.9897 = 0 := by
    simp [calculate_masses]
  have h3 : (calculate_masses mono).monoisotopic_mass
      - (calculate_masses mono).mh_minus_mass - 1.0073 = 0 := by
    simp [calculate_masses]
  rw [h1, h2, h3]
  norm_num

/-- The strict-improvement argmin fold returns a member of the list that
minimises the absolute retention-time difference. -/
theorem foldl_argmin_mem (t : ℚ) (q : ChanPoint) (qs : List ChanPoint) :
    (qs.foldl (fun b r =>
        if |r.retention_time - t| < |b.retention_time - t| then r else b) q) ∈ q :: qs ∧
    ∀ r ∈ q :: qs,
      |(qs.foldl (fun b r =>
          if |r.retention_time - t| < |b.retention_time - t| then r else b) q).retention_time
        - t| ≤ |r.retention_time - t| := by
  induction qs generalizing q with
  | nil =>
    refine ⟨List.mem_cons_self q [], ?_⟩
    intro r hr
    rcases List.mem_cons.1 hr with rfl | hr
    · exact le_refl _
    · exact absurd hr (List.not_mem_nil r)
  | cons r0 tl ih =>
    by_cases hc : |r0.retention_time - t| < |q.retention_time - t|
    · obtain ⟨hmem, hmin⟩ := ih r0
      constructor
      · simp only [List.foldl_cons, if_pos hc]
        exact List.mem_cons_of_mem q hmem
      · intro r hr
        simp only [List.foldl_cons, if_pos hc]
        rcases List.mem_cons.1 hr with rfl | hr
        · exact le_of_lt (lt_of_le_of_lt (hmin r0 (List.mem_cons_self r0 tl)) hc)
        · exact hmin r hr
    · obtain ⟨hmem, hmin⟩ := ih q
      constructor
      · simp only [List.foldl_cons, if_neg hc]
        rcases List.mem_cons.1 hmem with h | h
        · rw [h]; exact List.mem_cons_self q (r0 :: tl)
        · exact List.mem_cons_of_mem q (List.mem_cons_of_mem r0 h)
      · intro r hr
        simp only [List.foldl_cons, if_neg hc]
        rcases List.mem_cons.1 hr with rfl | hr
        · exact hmin r (List.mem_cons_self r tl)
        · rcases List.mem_cons.1 hr with rfl | hr
          · exact le_trans (hmin q (List.mem_cons_self q tl)) (le_of_not_lt hc)
          · exact hmin r (List.mem_cons_of_mem q hr)

/-- Membership in the UV tolerance filter unpacked. -/
theorem mem_matching_uv {uv : List ChanPoint} {t tol : ℚ} {q : ChanPoint} :
    q ∈ ChannelAnalyzer.matching_uv uv t tol ↔
      q ∈ uv ∧ t - tol ≤ q.retention_time ∧ q.retention_time ≤ t + tol := by
  simp [ChannelAnalyzer.matching_uv, List.mem_filter]

/-- Claim C4: every aligned row has time_difference at most rt_tolerance; a
series_a point with no series_b point within tolerance contributes no row
(one row per matched point, none per unmatched point); and each row pairs
its series_a point with a series_b point of minimal absolute retention-time
difference over all of series_b. -/
theorem align_channels_tolerance (ms uv : List ChanPoint) (tol : ℚ) :
    (∀ r ∈ ChannelAnalyzer.align_channels ms uv tol,
       r.rt_difference ≤ tol ∧
       ∃ q ∈ uv, r.uv_intensity = q.intensity ∧
         r.rt_difference = |r.retention_time - q.retention_time| ∧
         (∀ q2 ∈ uv, |r.retention_time - q.retention_time| ≤
            |r.retention_time - q2.retention_time|)) ∧
    (ChannelAnalyzer.align_channels ms uv tol).length =
      (ms.filter (fun p =>
        decide (ChannelAnalyzer.matching_uv uv p.retention_time tol ≠ []))).length := by
  constructor
  · intro r hr
    obtain ⟨p, hp, hpr⟩ := List.mem_filterMap.1 hr
    unfold ChannelAnalyzer.align_one at hpr
    cases hm : ChannelAnalyzer.matching_uv uv p.retention_time tol with
    | nil => rw [hm] at hpr; simp [ChannelAnalyzer.argmin_rtdiff] at hpr
    | cons q0 qs0 =>
      rw [hm] at hpr
      simp only [ChannelAnalyzer.argmin_rtdiff, Option.some.injEq] at hpr
      set B := qs0.foldl (fun b r =>
        if |r.retention_time - p.retention_time| < |b.retention_time - p.retention_time|
        then r else b) q0 with hB
      obtain ⟨hmem, hmin⟩ := foldl_argmin_mem p.retention_time q0 qs0
      rw [← hB] at hmem hmin
      have hBin : B ∈ ChannelAnalyzer.matching_uv uv p.retention_time tol := by
        rw [hm]; exact hmem
      obtain ⟨hBuv, hBlo, hBhi⟩ := mem_matching_uv.1 hBin
      have hBtol : |p.retention_time - B.retention_time| ≤ tol :=
        abs_le.2 ⟨by linarith, by linarith⟩
      subst hpr
      refine ⟨hBtol, B, hBuv, rfl, ?_, ?_⟩
      · simp only [abs_sub_comm]
      · intro q2 hq2
        by_cases hq2m : q2 ∈ ChannelAnalyzer.matching_uv uv p.retention_time tol
        · rw [hm] at hq2m
          have := hmin q2 hq2m
          calc |p.retention_time - B.retention_time|
              = |B.retention_time - p.retention_time| := abs_sub_comm _ _
            _ ≤ |q2.retention_time - p.retention_time| := this
            _ = |p.retention_time - q2.retention_time| := abs_sub_comm _ _
        · have : ¬(p.retention_time - tol ≤ q2.retention_time ∧
              q2.retention_time ≤ p.retention_time + tol) := by
            intro hboth
            exact hq2m (mem_matching_uv.2 ⟨hq2, hboth.1, hboth.2⟩)
          push_neg at this
          have htlt : tol < |p.retention_time - q2.retention_time| := by
            rcases lt_or_le q2.retention_time (p.retention_time - tol) with hlt | hge
            · calc tol < p.retention_time - q2.retention_time := by linarith
                _ ≤ |p.retention_time - q2.retention_time| := le_abs_self _
            · have h2 := this hge
              calc tol < q2.retention_time - p.retention_time := by linarith
                _ = -(p.retention_time - q2.retention_time) := by ring
                _ ≤ |p.retention_time - q2.retention_time| := neg_le_abs _
          exact le_of_lt (lt_of_le_of_lt hBtol htlt)
  · induction ms with
    | nil => rfl
    | cons p tl ih =>
      unfold ChannelAnalyzer.align_channels at ih ⊢
      rw [List.filterMap_cons, List.filter_cons]
      cases hm : ChannelAnalyzer.matching_uv uv p.retention_time tol with
      | nil =>
        have h1 : ChannelAnalyzer.align_one uv tol p = none := by
          unfold ChannelAnalyzer.align_one
          rw [hm]
          simp [ChannelAnalyzer.argmin_rtdiff]
        rw [h1]
        simp only [hm, decide_not]
        simpa using ih
      | cons q0 qs0 =>
        have h1 : ∃ b, ChannelAnalyzer.align_one uv tol p = some b := by
          unfold ChannelAnalyzer.align_one
          rw [hm]
          simp [ChannelAnalyzer.argmin_rtdiff]
        obtain ⟨b, hb⟩ := h1
        rw [hb]
        simp only [hm]
        simpa using ih

/-- Claim C4 witness: a single MS point at 1.0 min against a UV point at
1.05 min with tolerance 0.1 — the emitted row has time difference 0.05 and
is within tolerance. -/
theorem align_channels_tolerance_witness :
    ({ retention_time := 1, ms_intensity := 10, uv_intensity := 7,
       rt_difference := 1/20 } : AlignedRow).rt_difference ≤ 1/10 :=
  ((align_channels_tolerance
      [{ retention_time := 1, intensity := 10 }]
      [{ retention_time := 21/20, intensity := 7 }] (1/10)).1
    { retention_time := 1, ms_intensity := 10, uv_intensity := 7, rt_difference := 1/20 }
    (by
      norm_num [ChannelAnalyzer.align_channels, ChannelAnalyzer.align_one,
        ChannelAnalyzer.matching_uv, ChannelAnalyzer.argmin_rtdiff, List.filter,
        List.filterMap_cons, abs_sub_comm]
      rw [abs_of_nonneg (by norm_num : (0 : ℚ) ≤ 1/20)])).1

/-- Claim C5: detect_product is monotonic in tolerance — a detection at
tolerance t1 persists at every tolerance t2 >= t1. -/
theorem detect_product_tolerance_mono (peaks : List Peak) (t t1 t2 : ℚ)
    (h12 : t1 ≤ t2)
    (hdet : (PeakAnalyzer.detect_product peaks t t1).1 = true) :
    (PeakAnalyzer.detect_product peaks t t2).1 = true := by
  rw [detect_product_fst_iff] at hdet ⊢
  obtain ⟨p, hp⟩ := List.exists_mem_of_ne_nil _ hdet
  obtain ⟨hpk, hlo, hhi⟩ := mem_mass_matches.1 hp
  exact List.ne_nil_of_mem (mem_mass_matches.2 ⟨hpk, by linarith, by linarith⟩)

/-- Claim C5 witness: the scenario detection at tolerance 0.5 persists at
tolerance 1. -/
theorem detect_product_tolerance_mono_witness :
    (PeakAnalyzer.detect_product scenario_peaks 410.18 1).1 = true :=
  detect_product_tolerance_mono scenario_peaks 410.18 0.5 1 (by norm_num)
    (by norm_num [PeakAnalyzer.detect_product, PeakAnalyzer.mass_matches,
      PeakAnalyzer.idxmax_intensity, scenario_peaks, List.filter])

/-- Claim C8: local correlation windows slide one row at a time (the i-th
output entry is computed from rows i..i+window_size-1), the output has
exactly length - window_size + 1 entries, and a window that is constant in
either channel yields an explicitly undefined coefficient (none — never a
number) while still appearing in the output; the flat 5-row scenario
produces exactly one entry, present and undefined. -/
theorem local_correlation_sliding (aligned : List AlignedRow) (ws : ℕ)
    (hws : 2 ≤ ws) (hlen : ws ≤ aligned.length) :
    (ChannelAnalyzer.local_correlation aligned ws).length = aligned.length - ws + 1 ∧
    (∀ i, i + ws ≤ aligned.length →
      (ChannelAnalyzer.local_correlation aligned ws)[i]? =
        some (ChannelAnalyzer.mean ((ChannelAnalyzer.corr_window aligned i ws).map
                AlignedRow.retention_time),
              ChannelAnalyzer.pearson_r
                ((ChannelAnalyzer.corr_window aligned i ws).map AlignedRow.ms_intensity)
                ((ChannelAnalyzer.corr_window aligned i ws).map AlignedRow.uv_intensity)) ∧
      (ChannelAnalyzer.pearson_r
          ((ChannelAnalyzer.corr_window aligned i ws).map AlignedRow.ms_intensity)
          ((ChannelAnalyzer.corr_window aligned i ws).map AlignedRow.uv_intensity) = none ↔
        (ChannelAnalyzer.all_eq_head ((ChannelAnalyzer.corr_window aligned i ws).map
            AlignedRow.ms_intensity) = true ∨
         ChannelAnalyzer.all_eq_head ((ChannelAnalyzer.corr_window aligned i ws).map
            AlignedRow.uv_intensity) = true))) ∧
    ChannelAnalyzer.local_correlation flat_rows 5 = [(3, none)] := by
  have hwin : ∀ i, i + ws ≤ aligned.length →
      (ChannelAnalyzer.corr_window aligned i ws).length = ws := by
    intro i hi
    simp only [ChannelAnalyzer.corr_window, List.length_take, List.length_drop]
    omega
  refine ⟨?_, ?_, ?_⟩
  · simp only [ChannelAnalyzer.local_correlation, List.length_map, List.length_range]
    omega
  · intro i hi
    constructor
    · simp only [ChannelAnalyzer.local_correlation, List.getElem?_map]
      rw [List.getElem?_range (by omega : i < aligned.length + 1 - ws)]
      rfl
    · have hx : ((ChannelAnalyzer.corr_window aligned i ws).map
          AlignedRow.ms_intensity).length = ws := by
        rw [List.length_map]; exact hwin i hi
      have hy : ((ChannelAnalyzer.corr_window aligned i ws).map
          AlignedRow.uv_intensity).length = ws := by
        rw [List.length_map]; exact hwin i hi
      unfold ChannelAnalyzer.pearson_r
      rw [if_neg (by rw [hx, hy]; omega)]
      by_cases hcon :
          (ChannelAnalyzer.all_eq_head ((ChannelAnalyzer.corr_window aligned i ws).map
            AlignedRow.ms_intensity) ∨
           ChannelAnalyzer.all_eq_head ((ChannelAnalyzer.corr_window aligned i ws).map
            AlignedRow.uv_intensity))
      · rw [if_pos hcon]
        simpa using hcon
      · rw [if_neg hcon]
        simpa using hcon
  · norm_num [ChannelAnalyzer.local_correlation, ChannelAnalyzer.corr_window,
      ChannelAnalyzer.pearson_r, ChannelAnalyzer.mean, ChannelAnalyzer.all_eq_head,
      flat_rows, List.range_succ]

/-- Claim C8 witness: the flat scenario instantiates the sliding-window
theorem (one window, present in the output). -/
theorem local_correlation_sliding_witness :
    (ChannelAnalyzer.local_correlation flat_rows 5).length = flat_rows.length - 5 + 1 :=
  (local_correlation_sliding flat_rows 5 (by norm_num) (by norm_num [flat_rows])).1

/-- Python int() truncation agrees with the floor on non-negative
rationals. -/
theorem pyInt_eq_floor (q : ℚ) (hq : 0 ≤ q) : PDAProcessor.pyInt q = ⌊q⌋ := by
  unfold PDAProcessor.pyInt
  rw [Rat.floor_def]
  exact Int.tdiv_eq_ediv (Rat.num_nonneg.2 hq) (Int.natCast_nonneg q.den)

/-- Claim C7, counterexample: a 3-row matrix sampled at 0, 1 and 2 seconds,
target 1/60 min (= 1 s), halfwidth 1/60 min.  The rows whose retention time
lies within [0, 2 s] are all three, with mean [1]; the code averages only
rows 0 and 1 (its index window is right-open), giving [0]. -/
theorem extract_window_counterexample :
    PDAProcessor.extract_spectrum_at_rt c7_matrix (1/60) (1/60) = some [0] ∧
    PDAProcessor.claim_extract_window c7_matrix (PDAProcessor.assumed_axis c7_matrix)
      (1/60) (1/60) = some [1] ∧
    PDAProcessor.extract_spectrum_at_rt c7_matrix (1/60) (1/60) ≠
      PDAProcessor.claim_extract_window c7_matrix (PDAProcessor.assumed_axis c7_matrix)
        (1/60) (1/60) := by
  have h1 : PDAProcessor.pyInt 1 = 1 := by
    rw [pyInt_eq_floor 1 (by norm_num)]
    exact Int.floor_one
  have e1 : PDAProcessor.extract_spectrum_at_rt c7_matrix (1/60) (1/60) = some [0] := by
    simp only [PDAProcessor.extract_spectrum_at_rt, c7_matrix]
    norm_num [h1, PDAProcessor.col_mean]
    refine ⟨by simp, ?_⟩
    rw [show Int.toNat 2 = 2 from rfl]
    norm_num [List.take_succ_cons, List.take_zero]
  have e2 : PDAProcessor.claim_extract_window c7_matrix
      (PDAProcessor.assumed_axis c7_matrix) (1/60) (1/60) = some [1] := by
    simp only [PDAProcessor.claim_extract_window, PDAProcessor.assumed_axis, c7_matrix]
    norm_num [PDAProcessor.col_mean, List.range_succ, List.filter]
    exact fun hc => absurd hc (by simp)
  refine ⟨e1, e2, ?_⟩
  rw [e1, e2]
  simp only [ne_eq, Option.some.injEq, List.cons.injEq]
  norm_num

/-- Claim C7 (amended): extract_window consults no retention times — it
assumes one row per second and averages the rows with index in the
half-open window [max(0, floor(60 t) - floor(60 h)),
min(row count, floor(60 t) + floor(60 h))); when that window is empty the
result is undefined (numpy mean of an empty slice, NaN — here none), not a
NoDataInWindowError. -/
theorem extract_spectrum_at_rt_amended (pda : List (List ℚ)) (t h : ℚ)
    (ht : 0 ≤ t) (hh : 0 ≤ h) :
    ((min (pda.length : ℤ) (⌊t * 60⌋ + ⌊h * 60⌋)).toNat ≤ (⌊t * 60⌋ - ⌊h * 60⌋).toNat →
       PDAProcessor.extract_spectrum_at_rt pda t h = none) ∧
    (∀ lo hi, lo = (⌊t * 60⌋ - ⌊h * 60⌋).toNat →
       hi = (min (pda.length : ℤ) (⌊t * 60⌋ + ⌊h * 60⌋)).toNat →
       lo < hi →
       PDAProcessor.extract_spectrum_at_rt pda t h =
         some (PDAProcessor.col_mean ((pda.drop lo).take (hi - lo)))) := by
  have hft : PDAProcessor.pyInt (t * 60) = ⌊t * 60⌋ :=
    pyInt_eq_floor _ (mul_nonneg ht (by norm_num))
  have hfh : PDAProcessor.pyInt (h * 60) = ⌊h * 60⌋ :=
    pyInt_eq_floor _ (mul_nonneg hh (by norm_num))
  have hstart : (max 0 (⌊t * 60⌋ - ⌊h * 60⌋)).toNat = (⌊t * 60⌋ - ⌊h * 60⌋).toNat := by
    omega
  constructor
  · intro hempty
    simp only [PDAProcessor.extract_spectrum_at_rt]
    rw [hft, hfh, hstart]
    have htake : ((min (pda.length : ℤ) (⌊t * 60⌋ + ⌊h * 60⌋)).toNat -
        (⌊t * 60⌋ - ⌊h * 60⌋).toNat) = 0 := by omega
    rw [htake]
    simp
  · intro lo hi hlo hhi hw
    simp only [PDAProcessor.extract_spectrum_at_rt]
    rw [hft, hfh, hstart, ← hlo, ← hhi]
    have hlolen : lo < pda.length := by
      have : (hi : ℤ) ≤ (pda.length : ℤ) := by
        rw [hhi]
        omega
      omega
    have hne : (pda.drop lo).take (hi - lo) ≠ [] := by
      intro hc
      rcases List.take_eq_nil_iff.1 hc with hc1 | hc2
      · omega
      · have := List.drop_eq_nil_iff.1 hc2
        omega
    rw [if_neg hne]

/-- Claim C7 witness: the amended theorem applied to the 3-row matrix —
the averaged slice is rows [0, 2). -/
theorem extract_spectrum_at_rt_amended_witness :
    PDAProcessor.extract_spectrum_at_rt c7_matrix (1/60) (1/60) =
      some (PDAProcessor.col_mean ((c7_matrix.drop 0).take 2)) :=
  (extract_spectrum_at_rt_amended c7_matrix (1/60) (1/60) (by norm_num)
      (by norm_num)).2 0 2
    (by norm_num)
    (by
      norm_num [c7_matrix]
      omega)
    (by norm_num)

/-- Every element produced by the subtract-and-clamp step is non-negative. -/
theorem zipWith_clamp_nonneg : ∀ (l1 l2 : List ℚ),
    ∀ v ∈ List.zipWith (fun s b => max (s - b) 0) l1 l2, 0 ≤ v := by
  intro l1
  induction l1 with
  | nil => intro l2 v hv; simp at hv
  | cons a tl ih =>
    intro l2 v hv
    cases l2 with
    | nil => simp at hv
    | cons b tl2 =>
      rcases List.mem_cons.1 hv with rfl | hv
      · exact le_max_right _ _
      · exact ih tl2 v hv

/-- Claim C9: the simple strategy subtracts the 5th percentile and clamps at
zero element-wise; the iterative strategy (percentile anchors over
length/20-sized segments, least-squares cubic, clamp to the signal,
subtract, clamp at zero) succeeds on any signal of at least 20 points and
returns a same-length output; both outputs are everywhere non-negative. -/
theorem baseline_strategies_nonneg (spectrum signal : List ℚ) :
    (spectrum ≠ [] →
      PDAProcessor.baseline_correction spectrum =
        spectrum.map (fun v => max (v - np_percentile spectrum 5) 0) ∧
      ∀ v ∈ PDAProcessor.baseline_correction spectrum, 0 ≤ v) ∧
    (20 ≤ signal.length →
      ∃ out, PDAProcessor.correct_baseline signal = some out ∧
        out.length = signal.length ∧ ∀ v ∈ out, 0 ≤ v) := by
  constructor
  · intro _
    refine ⟨rfl, ?_⟩
    intro v hv
    obtain ⟨u, _, rfl⟩ := List.mem_map.1 hv
    exact le_max_right _ _
  · intro hlen
    have hws : signal.length / 20 ≠ 0 := by
      have : 1 ≤ signal.length / 20 := (Nat.one_le_div_iff (by norm_num)).2 hlen
      omega
    unfold PDAProcessor.correct_baseline
    rw [if_neg hws]
    refine ⟨_, rfl, ?_, ?_⟩
    · rw [List.length_zipWith, List.length_zipWith, List.length_map, List.length_range]
      omega
    · exact zipWith_clamp_nonneg _ _

/-- Claim C9 witness: the simple strategy on [3, 1, 2] and the iterative
strategy on a 20-point flat signal. -/
theorem baseline_strategies_nonneg_witness :
    (∀ v ∈ PDAProcessor.baseline_correction [3, 1, 2], 0 ≤ v) ∧
    ∃ out, PDAProcessor.correct_baseline (List.replicate 20 (0 : ℚ)) = some out ∧
      out.length = (List.replicate 20 (0 : ℚ)).length ∧ ∀ v ∈ out, 0 ≤ v :=
  ⟨((baseline_strategies_nonneg [3, 1, 2] (List.replicate 20 (0 : ℚ))).1
      (List.cons_ne_nil 3 [1, 2])).2,
   (baseline_strategies_nonneg [3, 1, 2] (List.replicate 20 (0 : ℚ))).2 (by simp)⟩

/-- Claim C10: process_sample detects the product with detect_product on the
MS peak table at target mh_mass = mono + 1.0078 and fixed tolerance 0.5;
mna_mass and mh_minus_mass are computed and stored in the result but are
never detection targets — when every peak mass lies outside
[mh - 0.5, mh + 0.5], detection is False even if some peak sits exactly at
the sodiated or deprotonated mass. -/
theorem process_sample_targets_mh (ms pda : List Peak) (mono : ℚ) :
    ((process_sample ms pda mono).product_detected,
     (process_sample ms pda mono).detected_mass,
     (process_sample ms pda mono).retention_time) =
      PeakAnalyzer.detect_product ms (mono + 1.0078) 0.5 ∧
    (process_sample ms pda mono).mna_mass = mono + 22.9897 ∧
    (process_sample ms pda mono).mh_minus_mass = mono - 1.0073 ∧
    (process_sample ms pda mono).purity = PeakAnalyzer.calculate_purity pda (0.2, 2.5) ∧
    ((∀ p ∈ ms, p.mass < mono + 1.0078 - 0.5 ∨ mono + 1.0078 + 0.5 < p.mass) →
       (process_sample ms pda mono).product_detected = false) := by
  refine ⟨rfl, rfl, rfl, rfl, ?_⟩
  intro hout
  have hmm : PeakAnalyzer.mass_matches ms (mono + 1.0078) 0.5 = [] := by
    unfold PeakAnalyzer.mass_matches
    rw [List.filter_eq_nil_iff]
    intro p hp
    rcases hout p hp with hlo | hhi
    · simp only [decide_eq_true_eq, not_and]
      intro hc
      linarith
    · simp only [decide_eq_true_eq, not_and]
      intro hc
      linarith
  have hps : (process_sample ms pda mono).product_detected =
      (PeakAnalyzer.detect_product ms (mono + 1.0078) 0.5).1 := rfl
  cases hb : (PeakAnalyzer.detect_product ms (mono + 1.0078) 0.5).1 with
  | false => rw [hps, hb]
  | true =>
    have hne := (detect_product_fst_iff ms (mono + 1.0078) 0.5).1 hb
    exact absurd hmm hne

/-- Claim C10 witness: a sample whose only MS peak sits exactly at the
sodiated mass mono + 22.9897 is reported not-detected (the detection target
is the protonated mass only). -/
theorem process_sample_targets_mh_witness :
    (process_sample
      [{ retention_time := 1, mass := 409.175 + 22.9897, intensity := 1000000, area := 0 }]
      [] 409.175).product_detected = false :=
  (process_sample_targets_mh
    [{ retention_time := 1, mass := 409.175 + 22.9897, intensity := 1000000, area := 0 }]
    [] 409.175).2.2.2.2
    (by
      intro p hp
      rcases List.mem_cons.1 hp with rfl | hp
      · right
        norm_num
      · simp at hp)

/-- A series with fewer than 3 points has no interior sample, so the scipy
local-maxima scan finds nothing. -/
theorem local_maxima_short (x : List ℚ) (hx : x.length ≤ 2) :
    SciPy.local_maxima_1d x = [] := by
  match x, hx with
  | [], _ => rfl
  | [a], _ => rfl
  | [a, b], _ => rfl

/-- find_peaks on a series without local maxima: no peaks survive, and the
prominences property exists exactly when a prominence or width constraint
was supplied. -/
theorem find_peaks_of_no_maxima (x : List ℚ) (h : Option ℚ) (d : Option ℕ)
    (pr w : Option ℚ) (hlm : SciPy.local_maxima_1d x = []) :
    SciPy.find_peaks x h d pr w =
      ([], match pr, w with
           | none, none => none
           | _, _ => some []) := by
  unfold SciPy.find_peaks
  rw [hlm]
  cases h <;> cases d <;> cases pr <;> cases w <;>
    simp [SciPy.select_by_peak_distance, SciPy.argsort, SciPy.argsort_aux,
      SciPy.sbd_loop, SciPy.peak_prominences, SciPy.peak_widths]

/-- The prominences entry of the find_peaks properties dict is absent when
neither a prominence nor a width constraint is supplied. -/
theorem find_peaks_no_prominences (x : List ℚ) (h : Option ℚ) (d : Option ℕ) :
    (SciPy.find_peaks x h d none none).2 = none := by
  unfold SciPy.find_peaks
  rfl

/-- PeakDetector.detect_peaks with a prominence constraint returns an empty
peak table — without error — on any series shorter than 3 points. -/
theorem detect_peaks_returns_empty (intensity rt : List ℚ) (h : Option ℚ)
    (d : Option ℕ) (pm : ℚ) (w : Option ℚ) (hlen : intensity.length ≤ 2)
    (hd : ∀ dv, d = some dv → 1 ≤ dv) :
    PeakDetector.detect_peaks intensity rt h d (some pm) w = Except.ok [] := by
  have hfp := find_peaks_of_no_maxima intensity h d (some pm) w
    (local_maxima_short intensity hlen)
  have hguard : PeakDetector.distance_invalid d = false := by
    cases d with
    | none => rfl
    | some dv =>
      exact decide_eq_false (Nat.not_lt.2 (hd dv rfl))
  unfold PeakDetector.detect_peaks
  rw [hguard]
  simp only [Bool.false_eq_true, if_false, hfp]
  cases w <;> simp [SciPy.peak_widths, SciPy.peak_prominences]

/-- PeakDetector.detect_peaks without a prominence or width constraint fails
on every input — regardless of length — with a KeyError on the missing
prominences property. -/
theorem detect_peaks_prominences_keyerror (intensity rt : List ℚ) (h : Option ℚ)
    (d : Option ℕ) (hd : ∀ dv, d = some dv → 1 ≤ dv) :
    PeakDetector.detect_peaks intensity rt h d none none =
      Except.error "KeyError: prominences" := by
  have hguard : PeakDetector.distance_invalid d = false := by
    cases d with
    | none => rfl
    | some dv =>
      exact decide_eq_false (Nat.not_lt.2 (hd dv rfl))
  unfold PeakDetector.detect_peaks
  rw [hguard]
  simp only [Bool.false_eq_true, if_false, find_peaks_no_prominences]

/-- find_peaks_in_spectrum returns an empty peak table — without error — on
a 2-point series. -/
theorem find_peaks_in_spectrum_two_points (time intensity : List ℚ) (ht : ℚ)
    (dist : ℕ) (h2t : time.length = 2) (h2i : intensity.length = 2)
    (hdist : 1 ≤ dist) :
    PeakAnalyzer.find_peaks_in_spectrum time intensity ht dist = Except.ok [] := by
  obtain ⟨a, b, rfl⟩ := List.length_eq_two.1 h2i
  obtain ⟨t1, t2, rfl⟩ := List.length_eq_two.1 h2t
  have hlm : SciPy.local_maxima_1d
      ([a, b].map (fun v => v / PeakAnalyzer.list_max [a, b])) = [] :=
    local_maxima_short _ (by simp)
  have hfp := find_peaks_of_no_maxima _ (some ht) (some dist) none none hlm
  unfold PeakAnalyzer.find_peaks_in_spectrum
  rw [if_neg (by simp : ¬([a, b] : List ℚ) = [])]
  rw [if_neg (by omega : ¬dist < 1)]
  simp only [hfp]
  simp [SciPy.peak_widths, SciPy.peak_prominences]

/-- find_peaks_in_spectrum on an empty intensity array fails at np.max. -/
theorem find_peaks_in_spectrum_empty_err (time : List ℚ) (ht : ℚ) (dist : ℕ) :
    PeakAnalyzer.find_peaks_in_spectrum time [] ht dist =
      Except.error "zero-size array to reduction operation maximum" := by
  unfold PeakAnalyzer.find_peaks_in_spectrum
  rw [if_pos rfl]

/-- find_peaks_in_spectrum with fewer than 2 time points fails at the
time[1] - time[0] sample-interval computation. -/
theorem find_peaks_in_spectrum_short_time_err (time intensity : List ℚ) (ht : ℚ)
    (dist : ℕ) (hi : intensity ≠ []) (hd : 1 ≤ dist) (htl : time.length < 2) :
    PeakAnalyzer.find_peaks_in_spectrum time intensity ht dist =
      Except.error "index 1 is out of bounds" := by
  unfold PeakAnalyzer.find_peaks_in_spectrum
  rw [if_neg hi, if_neg (by omega : ¬dist < 1), if_pos htl]

/-- Claim C6, counterexample: the 2-point series [5, 6] sampled at 0 and
0.6 s.  find_peaks_in_spectrum returns an empty peak table normally, and
detect_peaks (prominence supplied) does likewise: neither raises any error,
let alone an EmptySeriesError — which exists nowhere in the code. -/
theorem detect_short_series_counterexample :
    PeakAnalyzer.find_peaks_in_spectrum [0, 1/100] [5, 6] (1/10) 10 = Except.ok [] ∧
    PeakDetector.detect_peaks [5, 6] [0, 1/100] none none (some 0) none =
      Except.ok [] :=
  ⟨find_peaks_in_spectrum_two_points _ _ _ _ rfl rfl (by norm_num),
   detect_peaks_returns_empty _ _ none none 0 none (by norm_num)
     (fun dv hdv => by cases hdv)⟩

/-- Claim C6 (amended): no EmptySeriesError exists.  On a series with fewer
than 3 points the detectors find no local maximum and return an empty peak
table: detect_peaks does so whenever a prominence constraint is supplied
(without one it fails on every input, short or long, with a KeyError on the
missing prominences property), and find_peaks_in_spectrum does so on
2-point series, failing only with generic numpy errors on 0- or 1-point
input (empty-array reduction, index out of bounds). -/
theorem detect_short_series_behaviour (intensity rt time tint : List ℚ)
    (h : Option ℚ) (d : Option ℕ) (pm : ℚ) (w : Option ℚ) (ht : ℚ) (dist : ℕ) :
    (intensity.length < 3 → (∀ dv, d = some dv → 1 ≤ dv) →
       PeakDetector.detect_peaks intensity rt h d (some pm) w = Except.ok []) ∧
    ((∀ dv, d = some dv → 1 ≤ dv) →
       PeakDetector.detect_peaks intensity rt h d none none =
         Except.error "KeyError: prominences") ∧
    (time.length = 2 → tint.length = 2 → 1 ≤ dist →
       PeakAnalyzer.find_peaks_in_spectrum time tint ht dist = Except.ok []) ∧
    (tint ≠ [] → 1 ≤ dist → time.length < 2 →
       PeakAnalyzer.find_peaks_in_spectrum time tint ht dist =
         Except.error "index 1 is out of bounds") ∧
    PeakAnalyzer.find_peaks_in_spectrum time [] ht dist =
      Except.error "zero-size array to reduction operation maximum" :=
  ⟨fun hl hd => detect_peaks_returns_empty intensity rt h d pm w (by omega) hd,
   fun hd => detect_peaks_prominences_keyerror intensity rt h d hd,
   fun h2t h2i hdist => find_peaks_in_spectrum_two_points time tint ht dist h2t h2i hdist,
   fun hi hd htl => find_peaks_in_spectrum_short_time_err time tint ht dist hi hd htl,
   find_peaks_in_spectrum_empty_err time ht dist⟩

/-- Claim C6 witness: the amended theorem applied to a 2-point series. -/
theorem detect_short_series_behaviour_witness :
    PeakDetector.detect_peaks [5, 6] [0, 1] none none (some 0) none = Except.ok [] :=
  (detect_short_series_behaviour [5, 6] [0, 1] [0, 1] [5, 6] none none 0 none
    (1/10) 10).1 (by norm_num) (fun dv hdv => by cases hdv)

end LSMC
